import Mathlib

set_option maxRecDepth 8192

/-! Verification development for the offline HTML deck bundler
    (`bundle_program.py`).  The Python source is shallowly embedded:
    strings are `List Char`, the filesystem is an abstract record of
    pure lookup functions, fallible reads are `Option`, and the regex
    based `re.sub` passes are modelled as substitution over an explicit
    segmentation of the document into literal gaps and matched elements.
    All definitions are executable. -/

namespace Bundler

/-- Text is modelled as a list of characters (Python `str`). -/
abbrev Str := List Char

/-- Boolean test that `p` is a leading segment of `s`
    (Python `str.startswith`). -/
def leadsWith : Str → Str → Bool
  | [], _ => true
  | _ :: _, [] => false
  | p :: ps, c :: cs => p == c && leadsWith ps cs

/-- Boolean test that `p` is a trailing segment of `s`
    (Python `str.endswith`). -/
def trailsWith (p s : Str) : Bool :=
  leadsWith p.reverse s.reverse

/-- Character-wise lower casing (Python `str.lower`, ASCII fragment). -/
def lowerL (s : Str) : Str := s.map Char.toLower

/-- Model of `is_remote` (bundle_program.py:36-37): a reference is remote
    iff it starts with one of the three literal scheme markers. -/
def is_remote (url : Str) : Bool :=
  leadsWith "http://".data url || leadsWith "https://".data url ||
    leadsWith "data:".data url

/-- Abstract filesystem: existence test, text read and binary read.
    A read returning `none` models the `try`/`except` failure branch in
    the source; bytes are naturals below 256. -/
structure Fs where
  pathExists : Str → Bool
  readText : Str → Option Str
  readBytes : Str → Option (List Nat)

/-- Match of `LINK_CSS_RE` or `SCRIPT_SRC_RE`: the whole matched element
    (`m.group(0)`) and the captured reference (`m.group(1)`). -/
structure TagMatch where
  whole : Str
  ref : Str

/-- Match of `IMG_SRC_RE` with its three capture groups: text before the
    `src` value, the `src` value, and the text after it. -/
structure ImgMatch where
  pre : Str
  ref : Str
  post : Str

/-- Whole matched `<img>` element (`m.group(0)` = the three groups). -/
def ImgMatch.whole (m : ImgMatch) : Str := m.pre ++ m.ref ++ m.post

/-- Model of the extension table of Python `mimetypes.guess_type`
    (platform behaviour; the extension is compared case-insensitively),
    restricted to common web asset types. -/
def guessMime (p : Str) : Option Str :=
  if trailsWith ".png".data (lowerL p) then some "image/png".data
  else if trailsWith ".jpg".data (lowerL p) then some "image/jpeg".data
  else if trailsWith ".jpeg".data (lowerL p) then some "image/jpeg".data
  else if trailsWith ".gif".data (lowerL p) then some "image/gif".data
  else if trailsWith ".svg".data (lowerL p) then some "image/svg+xml".data
  else if trailsWith ".webp".data (lowerL p) then some "image/webp".data
  else if trailsWith ".css".data (lowerL p) then some "text/css".data
  else if trailsWith ".js".data (lowerL p) then some "text/javascript".data
  else if trailsWith ".html".data (lowerL p) then some "text/html".data
  else none

/-- Mime type with the default of bundle_program.py:49
    (`mime or "application/octet-stream"`). -/
def mimeOf (p : Str) : Str :=
  (guessMime p).getD "application/octet-stream".data

/-- Base64 alphabet position (RFC 4648, as used by `base64.b64encode`). -/
def b64char (n : Nat) : Char :=
  ("ABCDEFGHIJKLMNOPQRSTUVWXYZabcdefghijklmnopqrstuvwxyz0123456789+/").data.getD n 'A'

/-- Standard base64 of a byte list, with padding
    (Python `base64.b64encode`). -/
def b64encodeL : List Nat → Str
  | [] => []
  | [a] => [b64char (a / 4), b64char (a % 4 * 16), '=', '=']
  | [a, b] => [b64char (a / 4), b64char (a % 4 * 16 + b / 16), b64char (b % 16 * 4), '=']
  | a :: b :: c :: rest =>
      b64char (a / 4) :: b64char (a % 4 * 16 + b / 16) ::
        b64char (b % 16 * 4 + c / 64) :: b64char (c % 64) :: b64encodeL rest

/-- Model of `to_data_uri` (bundle_program.py:47-52); `none` models a
    failing byte read caught by the caller. -/
def to_data_uri (fs : Fs) (p : Str) : Option Str :=
  (fs.readBytes p).map (fun bs =>
    "data:".data ++ mimeOf p ++ ";base64,".data ++ b64encodeL bs)

/-- Model of `repl_link` (bundle_program.py:56-67).  `res` abstracts
    `(base_dir / href).resolve()`. -/
def repl_link (fs : Fs) (res : Str → Str) (m : TagMatch) : Str :=
  if is_remote m.ref then m.whole
  else if fs.pathExists (res m.ref) then
    match fs.readText (res m.ref) with
    | some css => "<style>\n".data ++ css ++ "\n</style>".data
    | none => m.whole
  else m.whole

/-- Model of `repl_script` (bundle_program.py:72-83). -/
def repl_script (fs : Fs) (res : Str → Str) (m : TagMatch) : Str :=
  if is_remote m.ref then m.whole
  else if fs.pathExists (res m.ref) then
    match fs.readText (res m.ref) with
    | some js => "<script>\n".data ++ js ++ "\n</script>".data
    | none => m.whole
  else m.whole

/-- Model of `repl_img` (bundle_program.py:90-101). -/
def repl_img (fs : Fs) (res : Str → Str) (m : ImgMatch) : Str :=
  if is_remote m.ref then m.whole
  else if fs.pathExists (res m.ref) then
    match to_data_uri fs (res m.ref) with
    | some data => m.pre ++ data ++ m.post
    | none => m.whole
  else m.whole

/-- Segment of a document as seen by a `re.sub` pass: either a literal
    gap between matches or one matched element. -/
inductive Seg (α : Type) where
  | lit : Str → Seg α
  | hit : α → Seg α

/-- Model of `re.sub`: every matched element is replaced by `repl`,
    literal gaps pass through unchanged, and the pieces are
    concatenated in order. -/
def reSub {α : Type} (repl : α → Str) (segs : List (Seg α)) : Str :=
  (segs.map (fun s => match s with | .lit t => t | .hit m => repl m)).foldr (· ++ ·) []

theorem reSub_nil {α : Type} (repl : α → Str) : reSub repl [] = [] := rfl

theorem reSub_cons {α : Type} (repl : α → Str) (s : Seg α) (rest : List (Seg α)) :
    reSub repl (s :: rest) =
      (match s with | .lit t => t | .hit m => repl m) ++ reSub repl rest := rfl

theorem reSub_append {α : Type} (repl : α → Str) (a b : List (Seg α)) :
    reSub repl (a ++ b) = reSub repl a ++ reSub repl b := by
  induction a with
  | nil => simp [reSub]
  | cons s rest ih =>
      simp only [List.cons_append, reSub_cons, ih, List.append_assoc]

/-- Prefix characterization of `leadsWith`. -/
theorem leadsWith_iff (p s : Str) : leadsWith p s = true ↔ ∃ t, s = p ++ t := by
  induction p generalizing s with
  | nil => simp [leadsWith]
  | cons c cs ih =>
      cases s with
      | nil => simp [leadsWith]
      | cons d ds =>
          simp only [leadsWith, Bool.and_eq_true, beq_iff_eq, ih, List.cons_append,
            List.cons.injEq]
          constructor
          · rintro ⟨rfl, t, rfl⟩; exact ⟨t, rfl, rfl⟩
          · rintro ⟨t, rfl, rfl⟩; exact ⟨rfl, t, rfl⟩

/-- Empty filesystem used by concrete witnesses. -/
def fsNone : Fs := ⟨fun _ => false, fun _ => none, fun _ => none⟩

/-- Demo filesystem with one stylesheet, one script and one image. -/
def fsDemo : Fs :=
  { pathExists := fun p => p == "s.css".data || p == "a.js".data || p == "i.png".data
    readText := fun p =>
      if p == "s.css".data then some "body".data
      else if p == "a.js".data then some "let x".data
      else none
    readBytes := fun p => if p == "i.png".data then some [77, 97, 110] else none }

/-- C6: a reference is classified remote iff it literally begins with
    one of the case-sensitive scheme markers, and every inlining pass
    leaves a remote reference's matched element byte-identical to the
    input. -/
theorem is_remote_classification :
    (∀ url : Str, is_remote url = true ↔
      ((∃ t, url = "http://".data ++ t) ∨ (∃ t, url = "https://".data ++ t) ∨
        (∃ t, url = "data:".data ++ t))) ∧
    (∀ (fs : Fs) (res : Str → Str) (m : TagMatch),
      is_remote m.ref = true → repl_link fs res m = m.whole) ∧
    (∀ (fs : Fs) (res : Str → Str) (m : TagMatch),
      is_remote m.ref = true → repl_script fs res m = m.whole) ∧
    (∀ (fs : Fs) (res : Str → Str) (m : ImgMatch),
      is_remote m.ref = true → repl_img fs res m = m.pre ++ m.ref ++ m.post) := by
  refine ⟨fun url => ?_, fun fs res m h => ?_, fun fs res m h => ?_, fun fs res m h => ?_⟩
  · simp only [is_remote, Bool.or_eq_true, leadsWith_iff]
    tauto
  · simp [repl_link, h]
  · simp [repl_script, h]
  · simp [repl_img, h, ImgMatch.whole]

/-- Closed instance of the C6 theorem at concrete remote references. -/
theorem is_remote_classification_witness :
    ((∃ t, "http://cdn/x.css".data = "http://".data ++ t) ∨
      (∃ t, "http://cdn/x.css".data = "https://".data ++ t) ∨
      (∃ t, "http://cdn/x.css".data = "data:".data ++ t)) ∧
    repl_link fsNone id ⟨"<link href=http://cdn/x.css>".data, "http://cdn/x.css".data⟩ =
      "<link href=http://cdn/x.css>".data ∧
    repl_img fsNone id ⟨"<img src=".data, "data:image/png;base64,AA".data, ">".data⟩ =
      "<img src=".data ++ "data:image/png;base64,AA".data ++ ">".data :=
  ⟨(is_remote_classification.1 "http://cdn/x.css".data).mp (by decide),
    is_remote_classification.2.1 fsNone id _ (by decide),
    is_remote_classification.2.2.2 fsNone id _ (by decide)⟩

/-- C4: a matched local reference whose resolved path does not exist, or
    whose file read fails, is replaced by itself (byte-identical element),
    and the substitution pass continues over the rest of the document. -/
theorem missing_asset_fallback :
    (∀ (fs : Fs) (res : Str → Str) (m : TagMatch),
      is_remote m.ref = false →
      fs.pathExists (res m.ref) = false ∨ fs.readText (res m.ref) = none →
      repl_link fs res m = m.whole) ∧
    (∀ (fs : Fs) (res : Str → Str) (m : TagMatch),
      is_remote m.ref = false →
      fs.pathExists (res m.ref) = false ∨ fs.readText (res m.ref) = none →
      repl_script fs res m = m.whole) ∧
    (∀ (fs : Fs) (res : Str → Str) (m : ImgMatch),
      is_remote m.ref = false →
      fs.pathExists (res m.ref) = false ∨ fs.readBytes (res m.ref) = none →
      repl_img fs res m = m.pre ++ m.ref ++ m.post) ∧
    (∀ {α : Type} (repl : α → Str) (a b : List (Seg α)) (m : α),
      reSub repl (a ++ Seg.hit m :: b) = reSub repl a ++ repl m ++ reSub repl b) := by
  refine ⟨fun fs res m hrem h => ?_, fun fs res m hrem h => ?_,
    fun fs res m hrem h => ?_, fun repl a b m => ?_⟩
  · rcases h with h | h <;> simp [repl_link, hrem, h]
  · rcases h with h | h <;> simp [repl_script, hrem, h]
  · rcases h with h | h <;>
      simp [repl_img, hrem, h, to_data_uri, ImgMatch.whole]
  · rw [reSub_append, reSub_cons, List.append_assoc]

/-- Closed instance of the C4 theorem: a missing stylesheet, an
    unreadable script and a missing image are all left unchanged. -/
theorem missing_asset_fallback_witness :
    repl_link fsNone id ⟨"<link rel=stylesheet href=m.css>".data, "m.css".data⟩ =
      "<link rel=stylesheet href=m.css>".data ∧
    repl_script fsDemo (fun _ => "u.js".data) ⟨"<script src=u.js></script>".data, "u.js".data⟩ =
      "<script src=u.js></script>".data ∧
    repl_img fsNone id ⟨"<img src=".data, "m.png".data, ">".data⟩ =
      "<img src=".data ++ "m.png".data ++ ">".data :=
  ⟨missing_asset_fallback.1 fsNone id _ (by decide) (Or.inl (by decide)),
    missing_asset_fallback.2.1 fsDemo (fun _ => "u.js".data) _ (by decide)
      (Or.inr (by decide)),
    missing_asset_fallback.2.2.1 fsNone id _ (by decide) (Or.inl (by decide))⟩

/-- C5: a matched local reference that resolves to an existing readable
    file is replaced by embedded content: the file text wrapped in
    `style`/`script` elements for the first two passes, and a base64
    data URI (with mime inferred from the name, defaulting to
    `application/octet-stream`) substituted for the `src` value of an
    `img` element. -/
theorem existing_asset_inlined :
    (∀ (fs : Fs) (res : Str → Str) (m : TagMatch) (css : Str),
      is_remote m.ref = false →
      fs.pathExists (res m.ref) = true →
      fs.readText (res m.ref) = some css →
      repl_link fs res m = "<style>\n".data ++ css ++ "\n</style>".data) ∧
    (∀ (fs : Fs) (res : Str → Str) (m : TagMatch) (js : Str),
      is_remote m.ref = false →
      fs.pathExists (res m.ref) = true →
      fs.readText (res m.ref) = some js →
      repl_script fs res m = "<script>\n".data ++ js ++ "\n</script>".data) ∧
    (∀ (fs : Fs) (res : Str → Str) (m : ImgMatch) (bs : List Nat),
      is_remote m.ref = false →
      fs.pathExists (res m.ref) = true →
      fs.readBytes (res m.ref) = some bs →
      repl_img fs res m =
        m.pre ++ "data:".data ++ mimeOf (res m.ref) ++ ";base64,".data ++
          b64encodeL bs ++ m.post) ∧
    (∀ p : Str, guessMime p = none → mimeOf p = "application/octet-stream".data) := by
  refine ⟨fun fs res m css hrem hex hrd => ?_, fun fs res m js hrem hex hrd => ?_,
    fun fs res m bs hrem hex hrd => ?_, fun p h => ?_⟩
  · simp [repl_link, hrem, hex, hrd]
  · simp [repl_script, hrem, hex, hrd]
  · simp [repl_img, hrem, hex, to_data_uri, hrd, List.append_assoc]
  · simp [mimeOf, h]

/-- Closed instance of the C5 theorem on the demo filesystem: the
    stylesheet text, the script text and the base64 image payload are
    embedded in place of the references. -/
theorem existing_asset_inlined_witness :
    repl_link fsDemo id ⟨"<link rel=stylesheet href=s.css>".data, "s.css".data⟩ =
      "<style>\n".data ++ "body".data ++ "\n</style>".data ∧
    repl_script fsDemo id ⟨"<script src=a.js></script>".data, "a.js".data⟩ =
      "<script>\n".data ++ "let x".data ++ "\n</script>".data ∧
    repl_img fsDemo id ⟨"<img src=".data, "i.png".data, ">".data⟩ =
      "<img src=".data ++ "data:".data ++ mimeOf "i.png".data ++ ";base64,".data ++
        b64encodeL [77, 97, 110] ++ ">".data :=
  ⟨existing_asset_inlined.1 fsDemo id _ "body".data (by decide) (by decide) (by decide),
    existing_asset_inlined.2.1 fsDemo id _ "let x".data (by decide) (by decide) (by decide),
    existing_asset_inlined.2.2.1 fsDemo id _ [77, 97, 110] (by decide) (by decide)
      (by decide)⟩

/-- First-occurrence split: text strictly before the first occurrence of
    `pat` in `s`, and the text after that occurrence (the search part of
    Python `str.replace(old, new, 1)`). -/
def splitFirst (pat : Str) : Str → Option (Str × Str)
  | [] => if pat.isEmpty then some ([], []) else none
  | c :: rest =>
      if leadsWith pat (c :: rest) then some ([], (c :: rest).drop pat.length)
      else
        match splitFirst pat rest with
        | some (b, a) => some (c :: b, a)
        | none => none

/-- Boolean substring test (Python `in` on strings). -/
def occursIn (pat : Str) : Str → Bool
  | [] => pat.isEmpty
  | c :: rest => leadsWith pat (c :: rest) || occursIn pat rest

/-- Number of start positions at which `pat` occurs in `s`. -/
def countOccur (pat : Str) : Str → Nat
  | [] => 0
  | c :: rest => (if leadsWith pat (c :: rest) then 1 else 0) + countOccur pat rest

/-- Model of Python `s.replace(old, new, 1)` for non-empty `old`. -/
def replaceFirst (pat rep s : Str) : Str :=
  match splitFirst pat s with
  | some (b, a) => b ++ rep ++ a
  | none => s

/-- Search key of the charset presence test (bundle_program.py:212). -/
def charsetPat : Str := "<meta charset".data

/-- Literal opening head tag searched by the insertion
    (bundle_program.py:213). -/
def headTag : Str := "<head>".data

/-- Replacement text of the insertion (bundle_program.py:213). -/
def charsetIns : Str := "<head>\n  <meta charset=\"utf-8\" />".data

/-- Model of the charset guarantee step of `main`
    (bundle_program.py:211-213). -/
def ensureCharset (doc : Str) : Str :=
  if occursIn charsetPat (lowerL doc) then doc
  else replaceFirst headTag charsetIns doc

theorem splitFirst_eq_none (pat s : Str) (h : occursIn pat s = false) :
    splitFirst pat s = none := by
  induction s with
  | nil =>
      simp only [occursIn] at h
      simp [splitFirst, h]
  | cons c rest ih =>
      simp only [occursIn, Bool.or_eq_false_iff] at h
      simp only [splitFirst, h.1, if_false, ih h.2, Bool.false_eq_true]

theorem splitFirst_eq_some (pat s b a : Str) (h : splitFirst pat s = some (b, a)) :
    s = b ++ pat ++ a := by
  induction s generalizing b with
  | nil =>
      by_cases hp : pat.isEmpty
      · simp only [splitFirst, hp, if_true] at h
        obtain ⟨rfl, rfl⟩ := Prod.mk.injEq .. ▸ (Option.some.injEq .. ▸ h)
        simp [List.isEmpty_iff.mp hp]
      · simp [splitFirst, hp] at h
  | cons c rest ih =>
      by_cases hl : leadsWith pat (c :: rest) = true
      · obtain ⟨t, ht⟩ := (leadsWith_iff pat (c :: rest)).mp hl
        simp only [splitFirst, hl, if_true, Option.some.injEq, Prod.mk.injEq] at h
        obtain ⟨rfl, rfl⟩ := h
        rw [List.nil_append, ht, List.drop_left]
      · simp only [splitFirst, hl, if_false, Bool.false_eq_true] at h
        cases hs : splitFirst pat rest with
        | none => rw [hs] at h; simp at h
        | some p =>
            obtain ⟨b', a'⟩ := p
            rw [hs] at h
            simp only [Option.some.injEq, Prod.mk.injEq] at h
            obtain ⟨hb, ha⟩ := h
            subst hb; subst ha
            simp [ih b' hs, List.append_assoc]

/-- C7 counterexample: a document that already carries two charset
    declarations is left unchanged by the charset step, so it ends with
    two declarations, not exactly one as the claim states. -/
theorem charset_two_declarations_counterexample :
    occursIn charsetPat
        (lowerL "<head><meta charset=\"utf-8\"><meta charset=\"utf-8\"></head>".data) =
      true ∧
    ensureCharset "<head><meta charset=\"utf-8\"><meta charset=\"utf-8\"></head>".data =
      "<head><meta charset=\"utf-8\"><meta charset=\"utf-8\"></head>".data ∧
    countOccur charsetPat
        (lowerL "<head><meta charset=\"utf-8\"><meta charset=\"utf-8\"></head>".data) =
      2 := by
  refine ⟨by decide, ?_, by decide⟩
  have h : occursIn charsetPat
      (lowerL "<head><meta charset=\"utf-8\"><meta charset=\"utf-8\"></head>".data) =
      true := by decide
  simp [ensureCharset, h]

/-- C7 as amended: when no charset declaration is present
    (case-insensitive search) and a literal opening head tag exists,
    exactly one declaration is inserted immediately after the first
    opening head tag; when a declaration is already present, or when no
    opening head tag exists, the document is left unchanged. -/
theorem ensureCharset_cases (doc : Str) :
    (occursIn charsetPat (lowerL doc) = true → ensureCharset doc = doc) ∧
    (occursIn charsetPat (lowerL doc) = false → occursIn headTag doc = false →
      ensureCharset doc = doc) ∧
    (occursIn charsetPat (lowerL doc) = false → ∀ b a : Str,
      splitFirst headTag doc = some (b, a) →
      doc = b ++ headTag ++ a ∧
      ensureCharset doc = b ++ headTag ++ "\n  <meta charset=\"utf-8\" />".data ++ a) := by
  refine ⟨fun h => by simp [ensureCharset, h], fun h hh => ?_, fun h b a hs => ?_⟩
  · simp [ensureCharset, h, replaceFirst, splitFirst_eq_none headTag doc hh]
  · refine ⟨splitFirst_eq_some headTag doc b a hs, ?_⟩
    have hins : charsetIns = headTag ++ "\n  <meta charset=\"utf-8\" />".data := rfl
    simp only [ensureCharset, h, Bool.false_eq_true, if_false, replaceFirst, hs, hins]
    simp [List.append_assoc]

/-- Closed instance of the amended C7 theorem: a charset declaration is
    inserted right after the head tag of a document lacking one. -/
theorem ensureCharset_cases_witness :
    "<head><p>hi</p>".data = [] ++ headTag ++ "<p>hi</p>".data ∧
    ensureCharset "<head><p>hi</p>".data =
      [] ++ headTag ++ "\n  <meta charset=\"utf-8\" />".data ++ "<p>hi</p>".data :=
  (ensureCharset_cases "<head><p>hi</p>".data).2.2 (by decide) [] "<p>hi</p>".data
    (by decide)

/-- Case-insensitive leading-segment test; the pattern is given
    pre-lowered. -/
def leadsWithCI : Str → Str → Bool
  | [], _ => true
  | _ :: _, [] => false
  | p :: ps, c :: cs => p == c.toLower && leadsWithCI ps cs

/-- Case-insensitive first-occurrence split (pattern pre-lowered). -/
def splitFirstCI (pat : Str) : Str → Option (Str × Str)
  | [] => if pat.isEmpty then some ([], []) else none
  | c :: rest =>
      if leadsWithCI pat (c :: rest) then some ([], (c :: rest).drop pat.length)
      else
        match splitFirstCI pat rest with
        | some (b, a) => some (c :: b, a)
        | none => none

/-- Model of `TITLE_RE.search` (bundle_program.py:34, 106): the group of
    the leftmost match of the lazy pattern, i.e. the text between the
    first case-insensitive opening title tag and the first closing title
    tag after it (DOTALL lets it span lines, which `Str` covers). -/
def searchTitleGroup (s : Str) : Option Str :=
  match splitFirstCI "<title>".data s with
  | some (_, rest) =>
      match splitFirstCI "</title>".data rest with
      | some (g, _) => some g
      | none => none
  | none => none

/-- Whitespace set of Python `str.strip` (ASCII fragment). -/
def pySpace (c : Char) : Bool :=
  c == ' ' || c == '\t' || c == '\n' || c == '\x0d' || c == '\x0b' || c == '\x0c'

/-- Model of Python `str.strip` with no arguments. -/
def pyStrip (s : Str) : Str :=
  ((s.dropWhile pySpace).reverse.dropWhile pySpace).reverse

/-- Decode one entity at the head of `s` (the text after an ampersand):
    the basic named entities and decimal references.  Modelled from the
    platform `html.unescape`; the full HTML5 named table is not
    reproduced, and no theorem below depends on the omitted names. -/
def entityAt (s : Str) : Option (Char × Str) :=
  if leadsWith "amp;".data s then some ('&', s.drop 4)
  else if leadsWith "lt;".data s then some ('<', s.drop 3)
  else if leadsWith "gt;".data s then some ('>', s.drop 3)
  else if leadsWith "quot;".data s then some ('"', s.drop 5)
  else if leadsWith "apos;".data s then some ('\x27', s.drop 5)
  else
    match s with
    | '#' :: rest =>
        match rest.dropWhile Char.isDigit with
        | ';' :: rest2 =>
            if (rest.takeWhile Char.isDigit).isEmpty then none
            else
              some (Char.ofNat ((rest.takeWhile Char.isDigit).foldl
                (fun acc c => acc * 10 + (c.toNat - 48)) 0), rest2)
        | _ => none
    | _ => none

/-- Fuel-driven entity decoding loop; each step consumes at least one
    character, so fuel equal to the length is always enough. -/
def htmlUnescapeF : Nat → Str → Str
  | 0, s => s
  | _ + 1, [] => []
  | fuel + 1, '&' :: rest =>
      match entityAt rest with
      | some (c, rest2) => c :: htmlUnescapeF fuel rest2
      | none => '&' :: htmlUnescapeF fuel rest
  | fuel + 1, c :: rest => c :: htmlUnescapeF fuel rest

/-- Model of Python `html.unescape` as used at bundle_program.py:108. -/
def htmlUnescape (s : Str) : Str := htmlUnescapeF s.length s

/-- Model of `extract_title` (bundle_program.py:105-109). -/
def extract_title (html_text fallback : Str) : Str :=
  match searchTitleGroup html_text with
  | some g =>
      let t := pyStrip (htmlUnescape g)
      if t.isEmpty then fallback else t
  | none => fallback

/-- Filesystem for the C10 scenario: one stylesheet whose text contains
    both an earlier title element and a charset declaration. -/
def fsC10 : Fs :=
  { pathExists := fun p => p == "s.css".data
    readText := fun p =>
      if p == "s.css".data then
        some "/*<title>Asset Title</title><meta charset=x*/".data
      else none
    readBytes := fun _ => none }

/-- Raw document of the C10 scenario before inlining. -/
def docC10 : Str :=
  "<link rel=\"stylesheet\" href=\"s.css\"><title>Doc Title</title><head></head>".data

/-- Segmentation of `docC10` as matched by the stylesheet pass. -/
def segC10 : List (Seg TagMatch) :=
  [Seg.hit ⟨"<link rel=\"stylesheet\" href=\"s.css\">".data, "s.css".data⟩,
    Seg.lit "<title>Doc Title</title><head></head>".data]

/-- Stylesheet pass output on the C10 scenario. -/
def inlinedC10 : Str :=
  "<style>\n/*<title>Asset Title</title><meta charset=x*/\n</style><title>Doc Title</title><head></head>".data

/-- C10: the title search and the charset-presence check both run on the
    text produced by the inlining passes, not on the raw input: on this
    deck the inlined stylesheet text supplies an earlier title match that
    becomes the deck title (the raw text would have given the document's
    own title), and its embedded charset text suppresses the insertion
    that the raw text would have received. -/
theorem searches_run_after_inlining :
    reSub (repl_link fsC10 id) segC10 = inlinedC10 ∧
    extract_title inlinedC10 "deck.html".data = "Asset Title".data ∧
    extract_title docC10 "deck.html".data = "Doc Title".data ∧
    ensureCharset inlinedC10 = inlinedC10 ∧
    ensureCharset docC10 ≠ docC10 := by
  refine ⟨by decide, by decide, by decide, ?_, by decide⟩
  have h : occursIn charsetPat (lowerL inlinedC10) = true := by decide
  simp [ensureCharset, h]

/-- Python `str.replace` restricted to a single-character needle: every
    occurrence of `t` becomes `r`. -/
def replaceChar (t : Char) (r : Str) : Str → Str
  | [] => []
  | c :: cs => (if c = t then r else [c]) ++ replaceChar t r cs

/-- Model of `js_string_escape` (bundle_program.py:223-224): double every
    backslash, then put a backslash before every backtick. -/
def js_string_escape (s : Str) : Str :=
  replaceChar '\x60' ['\\', '\x60'] (replaceChar '\\' ['\\', '\\'] s)

/-- Per-character form of the escaping. -/
def escChar (c : Char) : Str :=
  if c = '\\' then ['\\', '\\'] else if c = '\x60' then ['\\', '\x60'] else [c]

/-- Concatenated per-character escaping. -/
def escAll : Str → Str
  | [] => []
  | c :: cs => escChar c ++ escAll cs

theorem replaceChar_append (t : Char) (r a b : Str) :
    replaceChar t r (a ++ b) = replaceChar t r a ++ replaceChar t r b := by
  induction a with
  | nil => rfl
  | cons c cs ih => simp [replaceChar, ih]

theorem js_string_escape_eq_escAll (s : Str) : js_string_escape s = escAll s := by
  induction s with
  | nil => rfl
  | cons c cs ih =>
      simp only [js_string_escape, replaceChar] at ih ⊢
      by_cases h1 : c = '\\'
      · subst h1
        rw [if_pos rfl, replaceChar_append, ih]
        simp [escAll, escChar, replaceChar]
      · rw [if_neg h1, replaceChar_append, ih]
        by_cases h2 : c = '\x60'
        · subst h2; simp [escAll, escChar, replaceChar]
        · simp [escAll, escChar, replaceChar, h1, h2]

theorem escAll_length (s : Str) : s.length ≤ (escAll s).length := by
  induction s with
  | nil => simp [escAll]
  | cons c cs ih =>
      have : 1 ≤ (escChar c).length := by
        simp only [escChar]
        split_ifs <;> simp
      simp only [escAll, List.length_cons, List.length_append]
      omega

/-- Cooked element of a template literal: one literal character, or one
    interpolation holding its raw expression text. -/
inductive TLItem where
  | ch : Char → TLItem
  | expr : Str → TLItem
deriving DecidableEq

/-- Cooked value of a single-character escape sequence in a template
    literal (ECMA-262 SingleEscapeCharacter, with the NonEscapeCharacter
    default; hex and unicode escapes are never produced by the bundler's
    escaper and are not modelled). -/
def unescTL (c : Char) : Char :=
  if c = 'n' then '\n'
  else if c = 't' then '\t'
  else if c = 'r' then '\x0d'
  else if c = 'b' then '\x08'
  else if c = 'f' then '\x0c'
  else if c = 'v' then '\x0b'
  else if c = '0' then '\x00'
  else c

/-- Scan the raw text of an interpolation up to the matching closing
    brace, tracking brace nesting; returns the expression text and the
    remaining input. -/
def scanExpr : Nat → Str → Option (Str × Str)
  | _, [] => none
  | depth, c :: rest =>
      if c = '\x7d' then
        match depth with
        | 0 => some ([], rest)
        | d + 1 => (scanExpr d rest).map (fun p => (c :: p.1, p.2))
      else if c = '\x7b' then (scanExpr (depth + 1) rest).map (fun p => (c :: p.1, p.2))
      else (scanExpr depth rest).map (fun p => (c :: p.1, p.2))

/-- Fuel-driven reader of a template literal body, started just after the
    opening backtick (ECMA-262 template literal lexical grammar: escape
    sequences, dollar-brace interpolation, carriage-return normalization,
    terminating backtick).  Returns the cooked items and the text after
    the closing backtick; `none` is a syntax error.  Every step consumes
    at least one character, so fuel above the length always suffices. -/
def parseTL : Nat → Str → Option (List TLItem × Str)
  | 0, _ => none
  | _ + 1, [] => none
  | fuel + 1, c :: rest =>
      if c = '\x60' then some ([], rest)
      else if c = '\\' then
        match rest with
        | [] => none
        | d :: rest2 =>
            (parseTL fuel rest2).map (fun p => (TLItem.ch (unescTL d) :: p.1, p.2))
      else if c = '$' then
        if rest.head? = some '\x7b' then
          match rest with
          | _ :: rest2 =>
              match scanExpr 0 rest2 with
              | some (e, rest3) =>
                  (parseTL fuel rest3).map (fun p => (TLItem.expr e :: p.1, p.2))
              | none => none
          | [] => none
        else (parseTL fuel rest).map (fun p => (TLItem.ch '$' :: p.1, p.2))
      else if c = '\x0d' then
        if rest.head? = some '\n' then
          match rest with
          | _ :: rest2 => (parseTL fuel rest2).map (fun p => (TLItem.ch '\n' :: p.1, p.2))
          | [] => none
        else (parseTL fuel rest).map (fun p => (TLItem.ch '\n' :: p.1, p.2))
      else (parseTL fuel rest).map (fun p => (TLItem.ch c :: p.1, p.2))

/-- Interpretation of an embedded literal body (text up to and including
    its closing backtick). -/
def literalValue (body : Str) : Option (List TLItem × Str) :=
  parseTL (body.length + 1) body

/-- Round-trip property of the Bundler's escaping: the escaped string,
    read back as a template literal, yields exactly the original
    characters with nothing beyond the closing delimiter consumed. -/
def escapeRoundTrips (s : Str) : Prop :=
  literalValue (js_string_escape s ++ ['\x60']) = some (s.map TLItem.ch, [])

/-- C1 counterexample: the escaper leaves the interpolation opener
    untouched, so the embedded literal for a string containing a
    dollar-brace sequence is read back as an interpolation, not as the
    original text: the embedding does not round-trip. -/
theorem escape_interpolation_counterexample :
    ¬ escapeRoundTrips "$\x7b1\x7d".data ∧
    js_string_escape "$\x7b1\x7d".data = "$\x7b1\x7d".data ∧
    literalValue (js_string_escape "$\x7b1\x7d".data ++ ['\x60']) =
      some ([TLItem.expr "1".data], []) := by
  refine ⟨?_, by decide, by decide⟩
  unfold escapeRoundTrips
  decide

theorem parseTL_close (f : Nat) (rest : Str) :
    parseTL (f + 1) ('\x60' :: rest) = some ([], rest) := rfl

theorem parseTL_escaped_pair (f : Nat) (d : Char) (rest : Str) :
    parseTL (f + 1) ('\\' :: d :: rest) =
      (parseTL f rest).map (fun p => (TLItem.ch (unescTL d) :: p.1, p.2)) := rfl

theorem parseTL_dollar (f : Nat) (rest : Str) (h : rest.head? ≠ some '\x7b') :
    parseTL (f + 1) ('$' :: rest) =
      (parseTL f rest).map (fun p => (TLItem.ch '$' :: p.1, p.2)) := by
  simp only [parseTL, if_neg h]
  rw [if_neg (show ¬ ('$' : Char) = '\x60' by decide),
    if_neg (show ¬ ('$' : Char) = '\\' by decide)]
  simp

theorem parseTL_generic (f : Nat) (c : Char) (rest : Str) (h1 : ¬ c = '\x60')
    (h2 : ¬ c = '\\') (h3 : ¬ c = '$') (h4 : ¬ c = '\x0d') :
    parseTL (f + 1) (c :: rest) =
      (parseTL f rest).map (fun p => (TLItem.ch c :: p.1, p.2)) := by
  simp only [parseTL, if_neg h1, if_neg h2, if_neg h3, if_neg h4]

theorem parseTL_escaped (s : Str) : ∀ (tail : Str) (fuel : Nat),
    occursIn ['$', '\x7b'] s = false → '\x0d' ∉ s → s.length + 1 ≤ fuel →
    parseTL fuel (escAll s ++ '\x60' :: tail) = some (s.map TLItem.ch, tail) := by
  induction s with
  | nil =>
      intro tail fuel _ _ hfuel
      cases fuel with
      | zero => omega
      | succ f => simpa [escAll] using parseTL_close f tail
  | cons c cs ih =>
      intro tail fuel hbr hcr hfuel
      have hbr2 : occursIn ['$', '\x7b'] cs = false := by
        simp only [occursIn, Bool.or_eq_false_iff] at hbr
        exact hbr.2
      have hlw : leadsWith ['$', '\x7b'] (c :: cs) = false := by
        simp only [occursIn, Bool.or_eq_false_iff] at hbr
        exact hbr.1
      have hcr1 : ¬ c = '\x0d' := fun h => hcr (h ▸ List.mem_cons_self c cs)
      have hcr2 : '\x0d' ∉ cs := fun h => hcr (List.mem_cons_of_mem c h)
      cases fuel with
      | zero => simp only [List.length_cons] at hfuel; omega
      | succ f =>
      have hf : cs.length + 1 ≤ f := by
        simp only [List.length_cons] at hfuel
        omega
      by_cases h1 : c = '\\'
      · subst h1
        have hesc : escChar '\\' = ['\\', '\\'] := rfl
        simp only [escAll, hesc, List.cons_append, List.nil_append, List.append_assoc]
        rw [parseTL_escaped_pair, ih tail f hbr2 hcr2 hf]
        simp [unescTL]
      · by_cases h2 : c = '\x60'
        · subst h2
          have hesc : escChar '\x60' = ['\\', '\x60'] := rfl
          simp only [escAll, hesc, List.cons_append, List.nil_append, List.append_assoc]
          rw [parseTL_escaped_pair, ih tail f hbr2 hcr2 hf]
          simp [unescTL]
        · by_cases h3 : c = '$'
          · subst h3
            have hhd : (escAll cs ++ '\x60' :: tail).head? ≠ some '\x7b' := by
              cases cs with
              | nil => simp [escAll]
              | cons d ds =>
                  have hd : ¬ d = '\x7b' := by
                    simp [leadsWith] at hlw
                    exact fun h => hlw h.symm
                  by_cases hd1 : d = '\\'
                  · subst hd1; simp [escAll, escChar]
                  · by_cases hd2 : d = '\x60'
                    · subst hd2; simp [escAll, escChar]
                    · simp [escAll, escChar, hd1, hd2, hd]
            have hesc : escChar '$' = ['$'] := rfl
            simp only [escAll, hesc, List.cons_append, List.nil_append,
              List.singleton_append, List.append_assoc]
            rw [parseTL_dollar f _ hhd, ih tail f hbr2 hcr2 hf]
            rfl
          · have hesc : escChar c = [c] := by simp [escChar, h1, h2]
            simp only [escAll, hesc, List.cons_append, List.nil_append,
              List.singleton_append, List.append_assoc]
            rw [parseTL_generic f c _ h2 h1 h3 hcr1, ih tail f hbr2 hcr2 hf]
            rfl

/-- C1 as amended: the escaping round-trips for every title and content
    string that contains neither the two-character interpolation opener
    (dollar immediately followed by an opening brace) nor a carriage
    return; with such a sequence present the embedding is misread (see
    the counterexample), since only backslash and backtick are escaped. -/
theorem js_string_escape_round_trips (s : Str)
    (hbr : occursIn ['$', '\x7b'] s = false) (hcr : '\x0d' ∉ s) :
    escapeRoundTrips s := by
  unfold escapeRoundTrips literalValue
  rw [js_string_escape_eq_escAll]
  exact parseTL_escaped s [] ((escAll s ++ ['\x60']).length + 1) hbr hcr
    (by
      have := escAll_length s
      simp only [List.length_append, List.length_cons, List.length_nil]
      omega)

/-- Closed instance of the amended C1 theorem on a string containing the
    delimiter and the escape character themselves. -/
theorem js_string_escape_round_trips_witness :
    escapeRoundTrips "a\\b\x60c<script>\"d\x27".data :=
  js_string_escape_round_trips "a\\b\x60c<script>\"d\x27".data (by decide) (by decide)

/-- Valid UTF-8 continuation byte range. -/
abbrev contOk (b1 : Nat) : Prop := 0x80 ≤ b1 ∧ b1 ≤ 0xBF

/-- Valid second byte of a three-byte sequence, excluding overlong forms
    and surrogates (RFC 3629 table, as enforced by the Python codec). -/
abbrev contOk3 (b b1 : Nat) : Prop :=
  if b = 0xE0 then 0xA0 ≤ b1 ∧ b1 ≤ 0xBF
  else if b = 0xED then 0x80 ≤ b1 ∧ b1 ≤ 0x9F
  else contOk b1

/-- Valid second byte of a four-byte sequence (RFC 3629 table). -/
abbrev contOk4 (b b1 : Nat) : Prop :=
  if b = 0xF0 then 0x90 ≤ b1 ∧ b1 ≤ 0xBF
  else if b = 0xF4 then 0x80 ≤ b1 ∧ b1 ≤ 0x8F
  else contOk b1

/-- Error-handler step of the codec: `errors="replace"` emits the
    replacement character for a rejected span, `errors="ignore"` emits
    nothing. -/
def drop1 (repl : Bool) (k : Str) : Str :=
  if repl then Char.ofNat 0xFFFD :: k else k

/-- Model of the Python UTF-8 decoder (platform behaviour of
    `bytes.decode("utf-8", errors=...)`): well-formed sequences decode to
    their scalar value; each maximal invalid span is handed to the error
    handler and decoding continues after it.  `repl` selects between the
    `replace` and `ignore` handlers. -/
def decodeUtf8 (repl : Bool) : List Nat → Str
  | [] => []
  | b :: rest =>
      if b < 0x80 then Char.ofNat b :: decodeUtf8 repl rest
      else if b < 0xC2 then drop1 repl (decodeUtf8 repl rest)
      else if b < 0xE0 then
        match rest with
        | [] => drop1 repl []
        | b1 :: r2 =>
            if contOk b1 then
              Char.ofNat ((b - 0xC0) * 64 + (b1 - 0x80)) :: decodeUtf8 repl r2
            else drop1 repl (decodeUtf8 repl (b1 :: r2))
      else if b < 0xF0 then
        match rest with
        | [] => drop1 repl []
        | b1 :: r2 =>
            if contOk3 b b1 then
              match r2 with
              | [] => drop1 repl []
              | b2 :: r3 =>
                  if contOk b2 then
                    Char.ofNat ((b - 0xE0) * 4096 + (b1 - 0x80) * 64 + (b2 - 0x80)) ::
                      decodeUtf8 repl r3
                  else drop1 repl (decodeUtf8 repl (b2 :: r3))
            else drop1 repl (decodeUtf8 repl (b1 :: r2))
      else if b < 0xF5 then
        match rest with
        | [] => drop1 repl []
        | b1 :: r2 =>
            if contOk4 b b1 then
              match r2 with
              | [] => drop1 repl []
              | b2 :: r3 =>
                  if contOk b2 then
                    match r3 with
                    | [] => drop1 repl []
                    | b3 :: r4 =>
                        if contOk b3 then
                          Char.ofNat ((b - 0xF0) * 262144 + (b1 - 0x80) * 4096 +
                            (b2 - 0x80) * 64 + (b3 - 0x80)) :: decodeUtf8 repl r4
                        else drop1 repl (decodeUtf8 repl (b3 :: r4))
                  else drop1 repl (decodeUtf8 repl (b2 :: r3))
            else drop1 repl (decodeUtf8 repl (b1 :: r2))
      else drop1 repl (decodeUtf8 repl rest)

/-- Model of `read_text` (bundle_program.py:39-41): decode the file's
    bytes as UTF-8 with `errors="ignore"`. -/
def read_text (bytes : List Nat) : Str := decodeUtf8 false bytes

/-- Reader following the claim's words.  Modelled from the spec: the
    sentence says malformed byte sequences are replaced rather than
    failing, i.e. the `errors="replace"` handler. -/
def readTextReplaceSpec (bytes : List Nat) : Str := decodeUtf8 true bytes

/-- Standard UTF-8 byte sequence of one scalar value. -/
def utf8Bytes (v : Nat) : List Nat :=
  if v < 0x80 then [v]
  else if v < 0x800 then [0xC0 + v / 64, 0x80 + v % 64]
  else if v < 0x10000 then [0xE0 + v / 4096, 0x80 + v / 64 % 64, 0x80 + v % 64]
  else [0xF0 + v / 262144, 0x80 + v / 4096 % 64, 0x80 + v / 64 % 64, 0x80 + v % 64]

/-- UTF-8 encoding of one character. -/
def encodeCharUtf8 (c : Char) : List Nat := utf8Bytes c.toNat

/-- UTF-8 encoding of a text. -/
def encodeUtf8 : Str → List Nat
  | [] => []
  | c :: cs => encodeCharUtf8 c ++ encodeUtf8 cs

theorem char_ofNat_toNat (c : Char) : Char.ofNat c.toNat = c := by
  have hv : c.toNat.isValidChar := c.valid
  unfold Char.ofNat
  rw [dif_pos hv]
  apply Char.eq_of_val_eq
  rfl

theorem decodeUtf8_utf8Bytes (repl : Bool) (v : Nat) (bs : List Nat)
    (hval : v < 0xd800 ∨ (0xdfff < v ∧ v < 0x110000)) :
    decodeUtf8 repl (utf8Bytes v ++ bs) = Char.ofNat v :: decodeUtf8 repl bs := by
  by_cases h1 : v < 0x80
  · have he : utf8Bytes v = [v] := by simp [utf8Bytes, h1]
    rw [he, List.singleton_append]
    rw [decodeUtf8.eq_def]; dsimp only
    rw [if_pos h1]
  · by_cases h2 : v < 0x800
    · have he : utf8Bytes v = [0xC0 + v / 64, 0x80 + v % 64] := by
        simp only [utf8Bytes]
        rw [if_neg h1, if_pos h2]
      rw [he]
      simp only [List.cons_append, List.nil_append]
      rw [decodeUtf8.eq_def]; dsimp only
      rw [if_neg (by omega), if_neg (by omega), if_pos (by omega),
        if_pos (show contOk (0x80 + v % 64) by constructor <;> omega)]
      have : (0xC0 + v / 64 - 0xC0) * 64 + (0x80 + v % 64 - 0x80) = v := by omega
      rw [this]
    · by_cases h3 : v < 0x10000
      · have he : utf8Bytes v = [0xE0 + v / 4096, 0x80 + v / 64 % 64, 0x80 + v % 64] := by
          simp only [utf8Bytes]
          rw [if_neg h1, if_neg h2, if_pos h3]
        rw [he]
        simp only [List.cons_append, List.nil_append]
        rw [decodeUtf8.eq_def]; dsimp only
        rw [if_neg (by omega), if_neg (by omega), if_neg (by omega), if_pos (by omega),
          if_pos (show contOk3 (0xE0 + v / 4096) (0x80 + v / 64 % 64) by
            unfold contOk3 contOk
            split_ifs <;> constructor <;> omega),
          if_pos (show contOk (0x80 + v % 64) by constructor <;> omega)]
        have : (0xE0 + v / 4096 - 0xE0) * 4096 + (0x80 + v / 64 % 64 - 0x80) * 64 +
            (0x80 + v % 64 - 0x80) = v := by omega
        rw [this]
      · have h4 : v < 0x110000 := by omega
        have he : utf8Bytes v =
            [0xF0 + v / 262144, 0x80 + v / 4096 % 64, 0x80 + v / 64 % 64, 0x80 + v % 64] := by
          simp only [utf8Bytes]
          rw [if_neg h1, if_neg h2, if_neg h3]
        rw [he]
        simp only [List.cons_append, List.nil_append]
        rw [decodeUtf8.eq_def]; dsimp only
        rw [if_neg (by omega), if_neg (by omega), if_neg (by omega), if_neg (by omega),
          if_pos (by omega),
          if_pos (show contOk4 (0xF0 + v / 262144) (0x80 + v / 4096 % 64) by
            unfold contOk4 contOk
            split_ifs <;> constructor <;> omega),
          if_pos (show contOk (0x80 + v / 64 % 64) by constructor <;> omega),
          if_pos (show contOk (0x80 + v % 64) by constructor <;> omega)]
        have : (0xF0 + v / 262144 - 0xF0) * 262144 + (0x80 + v / 4096 % 64 - 0x80) * 4096 +
            (0x80 + v / 64 % 64 - 0x80) * 64 + (0x80 + v % 64 - 0x80) = v := by omega
        rw [this]

theorem decodeUtf8_encodeChar (repl : Bool) (c : Char) (bs : List Nat) :
    decodeUtf8 repl (encodeCharUtf8 c ++ bs) = c :: decodeUtf8 repl bs := by
  rw [encodeCharUtf8, decodeUtf8_utf8Bytes repl c.toNat bs c.valid, char_ofNat_toNat]

/-- C9 counterexample: on a file whose bytes contain the malformed byte
    255, the source's `errors="ignore"` read drops the byte, while the
    claim's replacement semantics would keep a replacement character in
    its position, so the two disagree: malformed sequences are ignored,
    not replaced. -/
theorem read_text_ignores_not_replaces :
    read_text [0x61, 0xFF, 0x62] = ['a', 'b'] ∧
    readTextReplaceSpec [0x61, 0xFF, 0x62] = ['a', Char.ofNat 0xFFFD, 'b'] ∧
    read_text [0x61, 0xFF, 0x62] ≠ readTextReplaceSpec [0x61, 0xFF, 0x62] := by
  refine ⟨by decide, by decide, by decide⟩

/-- C9 as amended: reading never fails; a well-formed file decodes to its
    full text, and a malformed byte sequence is silently dropped (rather
    than replaced), with decoding continuing after it. -/
theorem read_text_total_and_drops :
    (∀ s : Str, read_text (encodeUtf8 s) = s) ∧
    (∀ s1 s2 : Str, read_text (encodeUtf8 s1 ++ 0xFF :: encodeUtf8 s2) = s1 ++ s2) := by
  have hrt : ∀ s : Str, read_text (encodeUtf8 s) = s := by
    intro s
    induction s with
    | nil => rfl
    | cons c cs ih =>
        show decodeUtf8 false (encodeCharUtf8 c ++ encodeUtf8 cs) = c :: cs
        rw [decodeUtf8_encodeChar]
        exact congrArg (c :: ·) ih
  refine ⟨hrt, fun s1 s2 => ?_⟩
  induction s1 with
  | nil =>
      show decodeUtf8 false (0xFF :: encodeUtf8 s2) = s2
      rw [decodeUtf8.eq_def]; dsimp only
      rw [if_neg (by omega), if_neg (by omega), if_neg (by omega), if_neg (by omega),
        if_neg (by omega)]
      have hd : drop1 false (decodeUtf8 false (encodeUtf8 s2)) =
          decodeUtf8 false (encodeUtf8 s2) := by simp [drop1]
      rw [hd]
      exact hrt s2
  | cons c cs ih =>
      show decodeUtf8 false ((encodeCharUtf8 c ++ encodeUtf8 cs) ++ 0xFF :: encodeUtf8 s2) =
        (c :: cs) ++ s2
      rw [List.append_assoc, decodeUtf8_encodeChar,
        show decodeUtf8 false (encodeUtf8 cs ++ 0xFF :: encodeUtf8 s2) = cs ++ s2 from ih]
      rfl

/-- Transcription of `RUNNER_TEMPLATE` (bundle_program.py:111-182), the
    Player Shell template string, with Python\x27s escaped quotes decoded
    exactly as the Python parser does. -/
def runnerTemplate : String :=
  "<!doctype html>\n<html lang=\"en\">\n<head>\n<meta charset=\"utf-8\" />\n<meta name=\"viewport\" content=\"width=device-width, initial-scale=1\" />\n<title>\x7btitle\x7d</title>\n<style>\n  :root\x7b --bg:#0f1114; --panel:#16191f; --ink:#e9edf3; --muted:#9aa3ad; --rule:#2a3038; --accent:#e0523f \x7d\n  *\x7bbox-sizing:border-box\x7d\n  html,body\x7bheight:100%\x7d\n  body\x7bmargin:0; background:var(--bg); color:var(--ink); font:16px/1.55 system-ui,-apple-system,Segoe UI,Roboto,Helvetica,Arial\x7d\n  header\x7bposition:sticky; top:0; z-index:10; background:linear-gradient(180deg,rgba(22,25,31,.9),rgba(22,25,31,.75)); border-bottom:1px solid var(--rule); backdrop-filter: blur(6px)\x7d\n  .bar\x7bdisplay:flex; align-items:center; gap:10px; padding:10px 14px\x7d\n  .brand\x7bfont-weight:800\x7d\n  .controls\x7bmargin-left:auto; display:flex; gap:8px; align-items:center\x7d\n  button,select\x7bappearance:none; border:1px solid var(--rule); background:var(--panel); color:var(--ink); border-radius:10px; padding:8px 10px; cursor:pointer\x7d\n  main\x7bheight:calc(100% - 52px)\x7d\n  .stage\x7bheight:100%; display:grid; place-items:center; padding:10px\x7d\n  iframe\x7b width:min(1200px, 94vw); aspect-ratio:16/9; border-radius:16px; border:1px solid var(--rule); box-shadow:0 12px 36px rgba(0,0,0,.25); background:#000; \x7d\n  .meta\x7bcolor:var(--muted); font:600 12px/1 ui-monospace,Menlo,Consolas,monospace\x7d\n</style>\n</head>\n<body>\n  <header>\n    <div class=\"bar\">\n      <div class=\"brand\">\x7btitle\x7d</div>\n      <div class=\"controls\">\n        <button id=\"prev\">◀ Prev</button>\n        <button id=\"next\">Next ▶</button>\n        <span id=\"ctr\" class=\"meta\"></span>\n        <button id=\"popout\">Open in Window</button>\n      </div>\n    </div>\n  </header>\n  <main>\n    <div class=\"stage\"><iframe id=\"frame\"></iframe></div>\n  </main>\n  <script>\n    const DECKS = \x7bdecks_json\x7d; // [\x7btitle, html\x7d]\n    const $f = document.getElementById(\x27frame\x27);\n    const $ctr = document.getElementById(\x27ctr\x27);\n    const $prev = document.getElementById(\x27prev\x27);\n    const $next = document.getElementById(\x27next\x27);\n    const $pop = document.getElementById(\x27popout\x27);\n    let idx = 0; const total = DECKS.length;\n\n    function update()\x7b\n      const d = DECKS[idx];\n      $f.srcdoc = d.html;\n      $ctr.textContent = \x60$\x7bidx+1\x7d / $\x7btotal\x7d — $\x7bd.title\x7d\x60;\n      history.replaceState(null, \x27\x27, \x27#\x27 + (idx+1));\n    \x7d\n    function show(i)\x7b idx = Math.max(0, Math.min(total-1, i)); update(); \x7d\n    $prev.addEventListener(\x27click\x27, ()=> show(idx-1));\n    $next.addEventListener(\x27click\x27, ()=> show(idx+1));\n    window.addEventListener(\x27keydown\x27, (e)=>\x7b\n      if(e.key===\x27ArrowLeft\x27) show(idx-1);\n      if(e.key===\x27ArrowRight\x27 || e.key===\x27 \x27) show(idx+1);\n    \x7d);\n\n    // Pop out current deck into its own window\n    $pop.addEventListener(\x27click\x27, ()=>\x7b\n      const d = DECKS[idx];\n      const w = window.open(\x27\x27, \x27_blank\x27, \x27noopener,noreferrer,width=1280,height=800\x27);\n      if(w) \x7b w.document.open(); w.document.write(d.html); w.document.close(); \x7d\n    \x7d);\n\n    const start = Math.max(1, Math.min(total, parseInt(location.hash.replace(\x27#\x27,\x27\x27)||\x271\x27,10)))-1; show(start);\n  </script>\n</body>\n</html>\n"

/-- Characters allowed to continue a replacement-field name before the
    separator (Python format mini-language: name ends at a colon,
    conversion marker, or closing brace). -/
def fieldNameChar (c : Char) : Bool := !(c = ':' || c = '!' || c = '\x7d')

/-- Keyword-argument lookup of `str.format`. -/
def lookupArg : List (String × String) → List Char → Option String
  | [], _ => none
  | (k, v) :: t, nm => if k.data = nm then some v else lookupArg t nm

/-- Model of Python `str.format` scanning (platform behaviour): literal
    text is copied, doubled braces escape, a lone closing brace is an
    error, and a replacement field looks its name up before any format
    spec is processed, raising `KeyError` for an unknown name.  The first
    list is fuel consumed one element per step; every step also consumes
    at least one input character, so fuel one longer than the input never
    runs out.  Conversions and format specs are not modelled: with the
    template below, every field reaching them fails the name lookup
    first. -/
def fmtCore : List (String × String) → List Char → List Char → List Char →
    Except String (List Char)
  | _, [], _, _ => Except.error "internal fuel exhausted"
  | _, _ :: _, acc, [] => Except.ok acc
  | args, _ :: fl, acc, '\x7b' :: '\x7b' :: rest => fmtCore args fl (acc ++ ['\x7b']) rest
  | args, _ :: fl, acc, '\x7d' :: '\x7d' :: rest => fmtCore args fl (acc ++ ['\x7d']) rest
  | _, _ :: _, _, '\x7d' :: _ => Except.error "Single closing brace encountered in format string"
  | args, _ :: fl, acc, '\x7b' :: rest =>
      match lookupArg args (rest.takeWhile fieldNameChar) with
      | none => Except.error ("KeyError: " ++ String.mk (rest.takeWhile fieldNameChar))
      | some v =>
          match rest.dropWhile fieldNameChar with
          | '\x7d' :: rest2 => fmtCore args fl (acc ++ v.data) rest2
          | _ :: _ => Except.error "conversion or format spec not modelled"
          | [] => Except.error "expected closing brace before end of string"
  | args, _ :: fl, acc, c :: rest => fmtCore args fl (acc ++ [c]) rest

/-- Model of `tpl.format(**args)` as called at bundle_program.py:230. -/
def pyFormat (tpl : String) (args : List (String × String)) : Except String String :=
  (fmtCore args (' ' :: tpl.data) [] tpl.data).map String.mk

/-- Evaluation fact: formatting the Player Shell template fails for every
    pair of argument values, because the first literal CSS brace of the
    template opens an unknown replacement field. -/
theorem pyFormat_runner (x y : String) :
    pyFormat runnerTemplate [("title", x), ("decks_json", y)] =
      Except.error "KeyError:  --bg" := rfl

/-- Model of Python `html.escape(s, quote=True)` (platform behaviour),
    replacement order as in the stdlib source. -/
def htmlEscape (s : Str) : Str :=
  replaceChar '\x27' "&#x27;".data
    (replaceChar '"' "&quot;".data
      (replaceChar '>' "&gt;".data
        (replaceChar '<' "&lt;".data
          (replaceChar '&' "&amp;".data s))))

/-- String wrapper of `htmlEscape`. -/
def htmlEscapeS (s : String) : String := String.mk (htmlEscape s.data)

/-- String wrapper of `js_string_escape`. -/
def jsEscapeS (s : String) : String := String.mk (js_string_escape s.data)

/-- Entry built for one deck by the f-string of bundle_program.py:227. -/
def deckEntry (d : String × String) : String :=
  "  \x7btitle: \x60" ++ jsEscapeS d.1 ++ "\x60, html: \x60" ++ jsEscapeS d.2 ++ "\x60\x7d"

/-- Model of the `decks_js` serialization (bundle_program.py:226-228). -/
def decksJs (decks : List (String × String)) : String :=
  "[\n" ++ String.intercalate ",\n" (decks.map deckEntry) ++ "\n]"

/-- Processing of one input inside the loop of `main`
    (bundle_program.py:209-217): `proc` abstracts `process_html`, and the
    charset guarantee step is applied to the returned markup. -/
def deckOf (proc : String → String × String) (p : String) : String × String :=
  ((proc p).1, String.mk (ensureCharset (proc p).2.data))

/-- Program title rule (bundle_program.py:220). -/
def programTitle (d0 : String × String) (dtail : List (String × String)) : String :=
  if dtail.length > 0 then
    "Program — " ++ d0.1 ++ " (+" ++ toString dtail.length ++ ")"
  else d0.1

/-- Model of `main` (bundle_program.py:197-234) over an abstract
    filesystem: `ex` is the existence test on the already-resolved input
    paths, `proc` abstracts `process_html`.  The only write of the run is
    the `Except.ok` result, carrying the output path and the document
    text; every `Except.error` is a run aborted with no file touched. -/
def mainModel (ex : String → Bool) (proc : String → String × String)
    (output : String) (inputs : List String) : Except String (String × String) :=
  match inputs.find? (fun p => ! ex p) with
  | some p => Except.error ("Input not found: " ++ p)
  | none =>
      match inputs.map (deckOf proc) with
      | [] => Except.error "IndexError: no input decks"
      | d0 :: dtail =>
          match pyFormat runnerTemplate
              [("title", htmlEscapeS (programTitle d0 dtail)),
                ("decks_json", decksJs (d0 :: dtail))] with
          | Except.error e => Except.error e
          | Except.ok out => Except.ok (output, out)

/-- C2 (code bug): for every run whose inputs all exist, serialization
    into the Player Shell template raises `KeyError` on the template\x27s
    first literal CSS brace, so the run always aborts before writing the
    output file, contradicting the claim that such runs complete and
    write the document. -/
theorem bundling_always_fails (ex : String → Bool) (proc : String → String × String)
    (output : String) (inputs : List String) (hne : inputs ≠ [])
    (hex : ∀ p ∈ inputs, ex p = true) :
    mainModel ex proc output inputs = Except.error "KeyError:  --bg" := by
  have hfind : inputs.find? (fun p => ! ex p) = none := by
    rw [List.find?_eq_none]
    intro x hx
    simp [hex x hx]
  obtain ⟨i, it, rfl⟩ : ∃ i it, inputs = i :: it := by
    cases inputs with
    | nil => exact absurd rfl hne
    | cons i it => exact ⟨i, it, rfl⟩
  unfold mainModel
  rw [hfind]
  simp only [List.map_cons]
  rw [pyFormat_runner]

/-- Closed instance of the C2 theorem: a run over one existing input
    fails with the template `KeyError`. -/
theorem bundling_always_fails_witness :
    mainModel (fun _ => true) (fun _ => ("Deck", "<head><p>x</p>")) "program.html"
      ["deck.html"] = Except.error "KeyError:  --bg" :=
  bundling_always_fails (fun _ => true) (fun _ => ("Deck", "<head><p>x</p>"))
    "program.html" ["deck.html"] (by simp) (fun p _ => rfl)

/-- C3: when some input path does not exist, the run aborts up front with
    a fatal error naming a missing path, before any document is
    processed, and no output is produced (the model writes only through
    the `ok` branch). -/
theorem missing_input_aborts (ex : String → Bool) (proc : String → String × String)
    (output : String) (inputs : List String) (h : ∃ p ∈ inputs, ex p = false) :
    ∃ p ∈ inputs, ex p = false ∧
      mainModel ex proc output inputs = Except.error ("Input not found: " ++ p) := by
  have hs : ∃ q, inputs.find? (fun p => ! ex p) = some q := by
    obtain ⟨p, hp, hpe⟩ := h
    have : (inputs.find? (fun p => ! ex p)).isSome := by
      rw [List.find?_isSome]
      exact ⟨p, hp, by simp [hpe]⟩
    exact Option.isSome_iff_exists.mp this
  obtain ⟨q, hq⟩ := hs
  have hqmem : q ∈ inputs := List.mem_of_find?_eq_some hq
  have hqe : ex q = false := by
    have := List.find?_some hq
    simpa using this
  refine ⟨q, hqmem, hqe, ?_⟩
  unfold mainModel
  rw [hq]

/-- Closed instance of the C3 theorem at a one-element input list whose
    path is missing. -/
theorem missing_input_aborts_witness :
    ∃ p ∈ ["missing.html"], (fun _ => false : String → Bool) p = false ∧
      mainModel (fun _ => false) (fun _ => ("", "")) "out.html" ["missing.html"] =
        Except.error ("Input not found: " ++ p) :=
  missing_input_aborts (fun _ => false) (fun _ => ("", "")) "out.html" ["missing.html"]
    ⟨"missing.html", by simp, rfl⟩

/-- C8: the deck sequence embedded by the serialization preserves the
    input order: for three inputs the serialized literal lists the first
    deck\x27s entry, then the second\x27s, then the third\x27s, and in general
    the deck built at position `i` is the processed form of the input at
    position `i`. -/
theorem deck_order_preserved :
    (∀ (proc : String → String × String) (a b c : String),
      decksJs ([a, b, c].map (deckOf proc)) =
        "[\n" ++ deckEntry (deckOf proc a) ++ ",\n" ++ deckEntry (deckOf proc b) ++
          ",\n" ++ deckEntry (deckOf proc c) ++ "\n]") ∧
    (∀ (proc : String → String × String) (inputs : List String) (i : Nat),
      (inputs.map (deckOf proc))[i]? = inputs[i]?.map (deckOf proc)) := by
  constructor
  · intro proc a b c
    simp only [List.map_cons, List.map_nil, decksJs, String.intercalate,
      String.intercalate.go]
    simp [String.append_assoc]
  · intro proc inputs i
    simp [List.getElem?_map]

end Bundler
